import Mathlib

/-!
# Verification of `raindrop_convert.py`

A shallow embedding of the bookmark converter `src/raindrop_convert.py`:
a Raindrop.io CSV export (rows of title, url, folder, created) is turned
into a Netscape-bookmark HTML document.

Conventions of the embedding:
* Python strings are Lean `String`s; where Python string methods are used
  (`strip`, `split`, `lower`, `replace`, `html.escape`, `str(int)`) they are
  modelled as explicit functions over the character list `String.data`,
  following CPython semantics (restricted to the ASCII range where Python
  is Unicode-aware; every input exercised here is ASCII).
* A missing cell of the DataFrame (`pd.isna`) is `Option.none`.
* `datetime.now().timestamp()` is an explicit parameter `now : Int`;
  the local UTC offset used by `datetime.timestamp()` on naive datetimes
  is an explicit parameter `localOff : Int`.
* Python's `sorted`/`DataFrame.sort_values` are modelled by a stable
  insertion sort; any stable sort computes the same list, and none of the
  properties proved below depends on the order of tied elements.
* Mutation of the `BookmarkFolder` tree is modelled by functional update;
  dict insertion order (new keys appended at the end) is preserved by
  representing `self.subfolders` as an association list.
-/

/-! ## Python string primitives -/

/-- The whitespace characters stripped by Python's `str.strip()`
(ASCII part: space, tab, newline, carriage return, vertical tab, form feed). -/
def pyIsSpace (c : Char) : Bool :=
  c = ' ' || c = '\t' || c = '\n' || c = '\r' || c = '\x0b' || c = '\x0c'

/-- Characters of `s.strip()`: drop leading and trailing whitespace. -/
def stripChars (l : List Char) : List Char :=
  ((l.dropWhile pyIsSpace).reverse.dropWhile pyIsSpace).reverse

/-- Python `s.strip()`. -/
def pyStrip (s : String) : String := ⟨stripChars s.data⟩

/-- Characters-level model of Python `s.split('/')`: split on every `'/'`;
`"".split('/') = ['']`, consecutive separators yield empty pieces. -/
def splitSlash : List Char → List (List Char)
  | [] => [[]]
  | c :: rest =>
    if c = '/' then [] :: splitSlash rest
    else
      match splitSlash rest with
      | [] => [[c]]
      | h :: t => (c :: h) :: t

/-- Python `html.escape(s)` (with the default `quote=True`): replace
`&`, `<`, `>`, `"`, `'` by their entities.  The sequential `str.replace`
calls of CPython are equivalent to this character-wise expansion because
no replacement string contains a character escaped by a later call. -/
def htmlEscapeChar (c : Char) : List Char :=
  if c = '&' then "&amp;".data
  else if c = '<' then "&lt;".data
  else if c = '>' then "&gt;".data
  else if c = '"' then "&quot;".data
  else if c = '\'' then "&#x27;".data
  else [c]

/-- Python `html.escape`. -/
def html_escape (s : String) : String := ⟨s.data.flatMap htmlEscapeChar⟩

/-- Python `str.lower` on one character (ASCII range). -/
def lowerChar (c : Char) : Char :=
  if 'A' ≤ c ∧ c ≤ 'Z' then Char.ofNat (c.toNat + 32) else c

/-- Python `s.lower()` (ASCII range). -/
def pyLower (s : String) : String := ⟨s.data.map lowerChar⟩

/-- Lexicographic comparison of character lists by code point: Python's
`<=` on strings. -/
def charLe : List Char → List Char → Bool
  | [], _ => true
  | _ :: _, [] => false
  | x :: xs, y :: ys => if x = y then charLe xs ys else decide (x < y)

/-- Python `s1 <= s2` on strings. -/
def pyStrLe (a b : String) : Bool := charLe a.data b.data

/-- Python `created.replace('Z', '+00:00')`: every occurrence of the
one-character pattern `'Z'` is expanded. -/
def replaceZOffset (s : String) : String :=
  ⟨s.data.flatMap (fun c => if c = 'Z' then "+00:00".data else [c])⟩

/-- Digits of a natural number, most significant first; `fuel ≥ n`
guarantees enough steps (one step per division by 10). -/
def natDigitsAux : Nat → Nat → List Char
  | 0, _ => []
  | fuel + 1, n =>
    if n = 0 then []
    else natDigitsAux fuel (n / 10) ++ [Char.ofNat (48 + n % 10)]

/-- Python `str(i)` for an integer. -/
def pyIntRepr : Int → String
  | .ofNat n => if n = 0 then "0" else ⟨natDigitsAux (n + 1) n⟩
  | .negSucc m => ⟨'-' :: natDigitsAux (m + 2) (m + 1)⟩

/-! ## The timestamp of `datetime.fromisoformat(...).timestamp()`

`create_bookmark_html` parses `created.replace('Z', '+00:00')` with
`datetime.fromisoformat` and converts to epoch seconds.  The model below
accepts the formats `YYYY-MM-DD`, `YYYY-MM-DDTHH:MM:SS` and
`YYYY-MM-DDTHH:MM:SS±HH:MM` (the shapes produced by a Raindrop export
after the `Z` replacement); any other string is a parse failure.
A datetime without offset is naive, and `timestamp()` interprets it in
the local timezone, passed in as `localOff` (seconds east of UTC). -/

def isLeap (y : Nat) : Bool := y % 4 = 0 && (y % 100 ≠ 0 || y % 400 = 0)

def daysInMonth (y m : Nat) : Nat :=
  if m = 1 then 31 else if m = 2 then (if isLeap y then 29 else 28)
  else if m = 3 then 31 else if m = 4 then 30 else if m = 5 then 31
  else if m = 6 then 30 else if m = 7 then 31 else if m = 8 then 31
  else if m = 9 then 30 else if m = 10 then 31 else if m = 11 then 30
  else 31

/-- Days in the months strictly before month `m` of year `y`. -/
def daysBeforeMonth (y m : Nat) : Nat :=
  (List.range (m - 1)).foldl (fun acc i => acc + daysInMonth y (i + 1)) 0

/-- Day number of y-m-d in the proleptic Gregorian calendar
(0001-01-01 is day 0). -/
def rataDie (y m d : Nat) : Nat :=
  365 * (y - 1) + (y - 1) / 4 + (y - 1) / 400 - (y - 1) / 100
    + daysBeforeMonth y m + (d - 1)

def digitVal (c : Char) : Option Nat :=
  if '0' ≤ c ∧ c ≤ '9' then some (c.toNat - 48) else none

def parse2 : List Char → Option (Nat × List Char)
  | a :: b :: rest =>
    match digitVal a, digitVal b with
    | some x, some y => some (10 * x + y, rest)
    | _, _ => none
  | _ => none

def parse4 (l : List Char) : Option (Nat × List Char) :=
  match parse2 l with
  | none => none
  | some (hi, r) =>
    match parse2 r with
    | none => none
    | some (lo, r') => some (100 * hi + lo, r')

/-- Parse `HH:MM:SS` and return (h, m, s, rest). -/
def parseHMS : List Char → Option (Nat × Nat × Nat × List Char)
  | l =>
    match parse2 l with
    | some (h, ':' :: r1) =>
      match parse2 r1 with
      | some (mi, ':' :: r2) =>
        match parse2 r2 with
        | some (s, r3) => some (h, mi, s, r3)
        | _ => none
      | _ => none
    | _ => none

/-- Parse a trailing offset: empty means naive, `±HH:MM` gives seconds
east of UTC, anything else fails. -/
def parseOffset : List Char → Option (Option Int)
  | [] => some none
  | '+' :: r =>
    match parseHM r with
    | some secs => some (some secs)
    | none => none
  | '-' :: r =>
    match parseHM r with
    | some secs => some (some (-secs))
    | none => none
  | _ => none
where
  parseHM : List Char → Option Int
    | l =>
      match parse2 l with
      | some (h, ':' :: r) =>
        match parse2 r with
        | some (m, []) => if h < 24 ∧ m < 60 then some (3600 * h + 60 * m) else none
        | _ => none
      | _ => none

/-- The epoch timestamp of a date-time with offset `off` seconds east of
UTC (the value of `datetime(...).timestamp()`). -/
def datetimeTimestamp (y mo d h mi s : Nat) (off : Int) : Int :=
  86400 * ((rataDie y mo d : Int) - (rataDie 1970 1 1 : Int))
    + 3600 * h + 60 * mi + s - off

/-- `int(datetime.fromisoformat(s).timestamp())` for the formats listed
above; `none` when `fromisoformat` raises `ValueError`. -/
def isoTimestamp (s : String) (localOff : Int) : Option Int :=
  match parse4 s.data with
  | some (y, '-' :: r1) =>
    match parse2 r1 with
    | some (mo, '-' :: r2) =>
      match parse2 r2 with
      | some (d, r3) =>
        if 1 ≤ y ∧ 1 ≤ mo ∧ mo ≤ 12 ∧ 1 ≤ d ∧ d ≤ daysInMonth y mo then
          match r3 with
          | [] => some (datetimeTimestamp y mo d 0 0 0 localOff)
          | 'T' :: r4 =>
            match parseHMS r4 with
            | some (h, mi, sec, r5) =>
              if h < 24 ∧ mi < 60 ∧ sec < 60 then
                match parseOffset r5 with
                | some none => some (datetimeTimestamp y mo d h mi sec localOff)
                | some (some off) => some (datetimeTimestamp y mo d h mi sec off)
                | none => none
              else none
            | none => none
          | _ => none
        else none
      | _ => none
    | _ => none
  | _ => none

/-! ## `create_bookmark_html` -/

/-- The ADD_DATE value chosen by `create_bookmark_html`: parse `created`
after the `Z` replacement, falling back to the current time `now` when
`created` is `None` (NaN cell), the empty string (falsy), or fails to
parse (the `except` branch). -/
def bookmarkAddDate (created : Option String) (now localOff : Int) : Int :=
  match created with
  | none => now
  | some s =>
    if s = "" then now
    else
      match isoTimestamp (replaceZOffset s) localOff with
      | some t => t
      | none => now

/-- `create_bookmark_html(title, url, created)`:
`<DT><A HREF="{html.escape(url)}" ADD_DATE="{add_date}">{html.escape(title)}</A>`. -/
def create_bookmark_html (title url : String) (created : Option String)
    (now localOff : Int) : String :=
  "<DT><A HREF=\"" ++ html_escape url ++ "\" ADD_DATE=\""
    ++ pyIntRepr (bookmarkAddDate created now localOff) ++ "\">"
    ++ html_escape title ++ "</A>"

/-! ## The folder tree -/

/-- `class BookmarkFolder`: a name, the `subfolders` dict (association
list in insertion order; keys are unique by construction) and the list
of bookmark HTML strings. -/
inductive BookmarkFolder where
  | mk (name : String) (subfolders : List (String × BookmarkFolder))
      (bookmarks : List String)

def BookmarkFolder.name : BookmarkFolder → String
  | .mk n _ _ => n

def BookmarkFolder.subfolders : BookmarkFolder → List (String × BookmarkFolder)
  | .mk _ s _ => s

def BookmarkFolder.bookmarks : BookmarkFolder → List String
  | .mk _ _ b => b

@[simp] theorem BookmarkFolder.name_mk (n s b) :
    (BookmarkFolder.mk n s b).name = n := rfl

@[simp] theorem BookmarkFolder.subfolders_mk (n s b) :
    (BookmarkFolder.mk n s b).subfolders = s := rfl

@[simp] theorem BookmarkFolder.bookmarks_mk (n s b) :
    (BookmarkFolder.mk n s b).bookmarks = b := rfl

/-- `current.subfolders[name] = f(old)` when the key exists, else append
`(name, f(BookmarkFolder(name)))` — Python dict update preserves the key's
position, a new key goes last. -/
def updateSubfolder (k : String) (f : BookmarkFolder → BookmarkFolder)
    (dflt : BookmarkFolder) :
    List (String × BookmarkFolder) → List (String × BookmarkFolder)
  | [] => [(k, f dflt)]
  | (k', c) :: rest =>
    if k' = k then (k', f c) :: rest
    else (k', c) :: updateSubfolder k f dflt rest

/-- Walk/create the chain of folders for the path segments and append the
bookmark at the leaf: the loop body of `add_to_folder_structure`. -/
def addAlong : List String → BookmarkFolder → String → BookmarkFolder
  | [], .mk n subs marks, b => .mk n subs (marks ++ [b])
  | seg :: rest, .mk n subs marks, b =>
    .mk n (updateSubfolder seg (fun c => addAlong rest c b) (.mk seg [] []) subs) marks

/-- The list of trimmed path segments walked by `add_to_folder_structure`:
empty when `folder_path` is NaN (`none`) or falsy (`""`), otherwise
`[f.strip() for f in folder_path.split('/')]`. -/
def folderSegs : Option String → List String
  | none => []
  | some s => if s = "" then [] else (splitSlash s.data).map (fun cs => (⟨stripChars cs⟩ : String))

/-- `add_to_folder_structure(root, folder_path, bookmark_html)`. -/
def add_to_folder_structure (root : BookmarkFolder) (folder_path : Option String)
    (bookmark_html : String) : BookmarkFolder :=
  addAlong (folderSegs folder_path) root bookmark_html

/-! ## Rows and `create_folder_structure` -/

/-- One row of the bookmarks DataFrame; `none` models a NaN cell. -/
structure Row where
  title : Option String
  url : String
  folder : Option String
  created : Option String

/-- `row['title'] if pd.notna(row['title']) else row['url']`. -/
def effectiveTitle (r : Row) : String :=
  match r.title with
  | some t => t
  | none => r.url

/-- The bookmark HTML built for one row by `create_folder_structure`. -/
def rowBookmarkHtml (r : Row) (now localOff : Int) : String :=
  create_bookmark_html (effectiveTitle r) r.url r.created now localOff

/-- Stable insertion into a sorted list (stability: an element is placed
before the first entry `y` with `le x y`, i.e. after all strictly smaller
ones and before tied ones coming from further right). -/
def orderedInsertB (le : α → α → Bool) (x : α) : List α → List α
  | [] => [x]
  | y :: rest => if le x y then x :: y :: rest else y :: orderedInsertB le x rest

/-- Stable insertion sort; extensionally equal to Python's stable
`sorted`/`sort_values` for a total preorder `le`. -/
def insertionSortB (le : α → α → Bool) : List α → List α
  | [] => []
  | x :: rest => orderedInsertB le x (insertionSortB le rest)

/-- `sort_values('folder', na_position='last')`: ascending by the folder
string, NaN rows last. -/
def rowLe (a b : Row) : Bool :=
  match a.folder, b.folder with
  | none, none => true
  | none, some _ => false
  | some _, none => true
  | some x, some y => charLe x.data y.data

/-- `create_folder_structure(bookmarks_df)`: sort rows by folder, then add
each row's bookmark HTML along its folder path, starting from
`BookmarkFolder("root")`. -/
def create_folder_structure (rows : List Row) (now localOff : Int) : BookmarkFolder :=
  (insertionSortB rowLe rows).foldl
    (fun root r => add_to_folder_structure root r.folder (rowBookmarkHtml r now localOff))
    (.mk "root" [] [])

/-- The same fold in the original row order, without the pre-sort
(the alternative considered by the spec). -/
def createFolderStructureUnsorted (rows : List Row) (now localOff : Int) : BookmarkFolder :=
  rows.foldl
    (fun root r => add_to_folder_structure root r.folder (rowBookmarkHtml r now localOff))
    (.mk "root" [] [])

/-! ## `generate_folder_html` -/

/-- `"    " * level`. -/
def indentStr (level : Nat) : String := ⟨List.replicate (4 * level) ' '⟩

/-- The sort key comparison of `sorted(folder.subfolders.values(),
key=lambda x: x.name.lower())`, lifted to the association list. -/
def subfolderLe (a b : String × BookmarkFolder) : Bool :=
  charLe (pyLower a.2.name).data (pyLower b.2.name).data

/-- The subfolders in the order the renderer visits them. -/
def sortedSubfolders (f : BookmarkFolder) : List (String × BookmarkFolder) :=
  insertionSortB subfolderLe f.subfolders

theorem sizeOf_snd_lt_of_mem_subfolders {p : String × BookmarkFolder}
    {f : BookmarkFolder} (h : p ∈ f.subfolders) : sizeOf p.2 < sizeOf f := by
  cases f with
  | mk n s m =>
    have h1 : sizeOf p < sizeOf s := List.sizeOf_lt_of_mem h
    cases p with
    | mk a b =>
      simp [BookmarkFolder.subfolders] at h1 ⊢
      omega

/-- `orderedInsertB` only permutes. -/
theorem perm_orderedInsertB (le : α → α → Bool) (x : α) (l : List α) :
    List.Perm (orderedInsertB le x l) (x :: l) := by
  induction l with
  | nil => simp [orderedInsertB]
  | cons y rest ih =>
    by_cases h : le x y = true
    · simp [orderedInsertB, h]
    · simp only [orderedInsertB, h]
      simp only [Bool.false_eq_true, if_false]
      exact ((ih.cons y).trans (List.Perm.swap x y rest))

/-- `insertionSortB` only permutes. -/
theorem perm_insertionSortB (le : α → α → Bool) (l : List α) :
    List.Perm (insertionSortB le l) l := by
  induction l with
  | nil => simp [insertionSortB]
  | cons x rest ih =>
    exact (perm_orderedInsertB le x (insertionSortB le rest)).trans (ih.cons x)

theorem mem_insertionSortB {le : α → α → Bool} {l : List α} {a : α} :
    a ∈ insertionSortB le l ↔ a ∈ l :=
  (perm_insertionSortB le l).mem_iff

/-- `generate_folder_html(folder, level)`: header and `<DL><p>` for a
non-root folder, the folder's bookmarks indented one level deeper, the
subfolders recursively in case-insensitive name order, and the closing
`</DL><p>`.  The source detects the root by the name `"root"`. -/
def generate_folder_html (f : BookmarkFolder) (level : Nat) : List String :=
  (if f.name ≠ "root" then
     [indentStr level ++ "<DT><H3>" ++ html_escape f.name ++ "</H3>",
      indentStr level ++ "<DL><p>"]
   else [])
  ++ (f.bookmarks.map
       (fun b => indentStr (if f.name ≠ "root" then level + 1 else level) ++ b))
  ++ ((sortedSubfolders f).attach.map
       (fun c => generate_folder_html c.val.2 (if f.name ≠ "root" then level + 1 else level))).flatten
  ++ (if f.name ≠ "root" then [indentStr level ++ "</DL><p>"] else [])
termination_by sizeOf f
decreasing_by
  exact sizeOf_snd_lt_of_mem_subfolders (mem_insertionSortB.mp c.2)

/-- `generate_folder_html` with the bookkeeping `attach` removed. -/
theorem generate_folder_html_unfold (f : BookmarkFolder) (level : Nat) :
    generate_folder_html f level =
    (if f.name ≠ "root" then
       [indentStr level ++ "<DT><H3>" ++ html_escape f.name ++ "</H3>",
        indentStr level ++ "<DL><p>"]
     else [])
    ++ (f.bookmarks.map
         (fun b => indentStr (if f.name ≠ "root" then level + 1 else level) ++ b))
    ++ ((sortedSubfolders f).map
         (fun c => generate_folder_html c.2 (if f.name ≠ "root" then level + 1 else level))).flatten
    ++ (if f.name ≠ "root" then [indentStr level ++ "</DL><p>"] else []) := by
  rw [generate_folder_html]
  rw [List.attach_map_val (sortedSubfolders f)
    (fun c => generate_folder_html c.2 (if f.name ≠ "root" then level + 1 else level))]

/-! ## The document -/

/-- The fixed document header, as its individual lines. -/
def headerLines : List String :=
  ["<!DOCTYPE NETSCAPE-Bookmark-file-1>",
   "<!-- This is an automatically generated file.",
   "     It will be read and overwritten.",
   "     DO NOT EDIT! -->",
   "<META HTTP-EQUIV=\"Content-Type\" CONTENT=\"text/html; charset=UTF-8\">",
   "<TITLE>Bookmarks</TITLE>",
   "<H1>Bookmarks</H1>",
   "<DL><p>"]

def footerLine : String := "</DL><p>"

/-- Every line the program emits, in order: the fixed header lines, the
rendered body, the fixed footer.  `generate_bookmarks_html` joins exactly
these lines with newlines. -/
def bookmarksDocumentLines (root : BookmarkFolder) : List String :=
  headerLines ++ generate_folder_html root 0 ++ [footerLine]

/-- `generate_bookmarks_html(root_folder)`: `'\n'.join([header] + content
+ [footer])`. -/
def generate_bookmarks_html (root : BookmarkFolder) : String :=
  String.intercalate "\n" (bookmarksDocumentLines root)

/-! ## `count_folders` and node counting -/

mutual
/-- The nested `count_folders` helper of
`convert_raindrop_to_browser_bookmarks`:
`len(folder.subfolders) + sum(count_folders(sub) for sub in ...)`. -/
def count_folders : BookmarkFolder → Nat
  | .mk _ subs _ => subs.length + countFoldersSubs subs

def countFoldersSubs : List (String × BookmarkFolder) → Nat
  | [] => 0
  | (_, c) :: rest => count_folders c + countFoldersSubs rest
end

mutual
/-- The number of `BookmarkFolder` nodes in the tree, the root included. -/
def totalNodes : BookmarkFolder → Nat
  | .mk _ subs _ => 1 + totalNodesSubs subs

def totalNodesSubs : List (String × BookmarkFolder) → Nat
  | [] => 0
  | (_, c) :: rest => totalNodes c + totalNodesSubs rest
end

mutual
/-- All name-paths (nonempty key sequences) leading from the given node to
a descendant node: the addresses of the non-root folders below it. -/
def pathsIn : BookmarkFolder → List (List String)
  | .mk _ subs _ => pathsInSubs subs

def pathsInSubs : List (String × BookmarkFolder) → List (List String)
  | [] => []
  | (k, c) :: rest => ([k] :: (pathsIn c).map (k :: ·)) ++ pathsInSubs rest
end

mutual
/-- Every bookmark HTML string stored anywhere in the tree. -/
def allBookmarks : BookmarkFolder → List String
  | .mk _ subs marks => marks ++ allBookmarksSubs subs

def allBookmarksSubs : List (String × BookmarkFolder) → List String
  | [] => []
  | (_, c) :: rest => allBookmarks c ++ allBookmarksSubs rest
end

/-- Follow a name-path through the `subfolders` maps. -/
def lookupPath : BookmarkFolder → List String → Option BookmarkFolder
  | f, [] => some f
  | f, k :: rest =>
    match f.subfolders.find? (fun p => p.1 = k) with
    | some (_, c) => lookupPath c rest
    | none => none

/-- The entry list of the node addressed by a name-path (empty when the
path does not exist). -/
def bookmarksAt (f : BookmarkFolder) (p : List String) : List String :=
  match lookupPath f p with
  | some c => c.bookmarks
  | none => []

/-- Induction over the folder tree: to prove `P` everywhere it suffices
to prove it at each node assuming it for all subfolders. -/
def folderInduction (P : BookmarkFolder → Prop)
    (step : ∀ n subs marks, (∀ p ∈ subs, P p.2) → P (.mk n subs marks)) :
    ∀ t, P t
  | .mk n subs marks =>
    step n subs marks (fun p hp =>
      have : sizeOf p.2 < sizeOf (BookmarkFolder.mk n subs marks) :=
        sizeOf_snd_lt_of_mem_subfolders (f := .mk n subs marks) hp
      folderInduction P step p.2)
termination_by t => sizeOf t
decreasing_by simpa using this

/-- `generate_folder_html` at a folder whose name is not `"root"`. -/
theorem generate_folder_html_nonroot (n : String) (subs : List (String × BookmarkFolder))
    (marks : List String) (level : Nat) (h : n ≠ "root") :
    generate_folder_html (.mk n subs marks) level =
    [indentStr level ++ "<DT><H3>" ++ html_escape n ++ "</H3>",
     indentStr level ++ "<DL><p>"]
    ++ marks.map (fun b => indentStr (level + 1) ++ b)
    ++ ((sortedSubfolders (.mk n subs marks)).map
         (fun c => generate_folder_html c.2 (level + 1))).flatten
    ++ [indentStr level ++ "</DL><p>"] := by
  rw [generate_folder_html_unfold]
  simp [h]

/-- `generate_folder_html` at a folder named `"root"`: no header, no
`<DL><p>`/`</DL><p>` pair, no extra indentation. -/
theorem generate_folder_html_root (subs : List (String × BookmarkFolder))
    (marks : List String) (level : Nat) :
    generate_folder_html (.mk "root" subs marks) level =
    marks.map (fun b => indentStr level ++ b)
    ++ ((sortedSubfolders (.mk "root" subs marks)).map
         (fun c => generate_folder_html c.2 level)).flatten := by
  rw [generate_folder_html_unfold]
  simp

/-! ## Order lemmas for the sorts -/

theorem charLe_total (a b : List Char) : charLe a b = true ∨ charLe b a = true := by
  induction a generalizing b with
  | nil => left; rfl
  | cons x xs ih =>
    cases b with
    | nil => right; rfl
    | cons y ys =>
      by_cases hxy : x = y
      · subst hxy
        rcases ih ys with h | h
        · left; simpa [charLe] using h
        · right; simpa [charLe] using h
      · rcases lt_trichotomy x y with h | h | h
        · left; simp [charLe, hxy, h]
        · exact absurd h hxy
        · right
          have hyx : y ≠ x := fun hc => hxy hc.symm
          simp [charLe, hyx, h]

theorem charLe_trans {a b c : List Char} (h1 : charLe a b = true)
    (h2 : charLe b c = true) : charLe a c = true := by
  induction a generalizing b c with
  | nil => rfl
  | cons x xs ih =>
    cases b with
    | nil => simp [charLe] at h1
    | cons y ys =>
      cases c with
      | nil => simp [charLe] at h2
      | cons z zs =>
        by_cases hxy : x = y
        · subst hxy
          by_cases hxz : x = z
          · subst hxz
            simp [charLe] at h1 h2 ⊢
            exact ih h1 h2
          · simp [charLe, hxz] at h2 ⊢
            exact h2
        · by_cases hyz : y = z
          · subst hyz
            simp [charLe, hxy] at h1 ⊢
            exact h1
          · simp [charLe, hxy] at h1
            simp [charLe, hyz] at h2
            have hxz : x < z := lt_trans h1 h2
            simp [charLe, ne_of_lt hxz, hxz]

theorem subfolderLe_total (a b : String × BookmarkFolder) :
    subfolderLe a b = true ∨ subfolderLe b a = true :=
  charLe_total _ _

theorem subfolderLe_trans {a b c : String × BookmarkFolder}
    (h1 : subfolderLe a b = true) (h2 : subfolderLe b c = true) :
    subfolderLe a c = true :=
  charLe_trans h1 h2

theorem mem_orderedInsertB {le : α → α → Bool} {x a : α} {l : List α} :
    a ∈ orderedInsertB le x l ↔ a = x ∨ a ∈ l := by
  rw [(perm_orderedInsertB le x l).mem_iff]
  simp

theorem pairwise_orderedInsertB (le : α → α → Bool)
    (htrans : ∀ a b c, le a b = true → le b c = true → le a c = true)
    (htot : ∀ a b, le a b = true ∨ le b a = true) (x : α) (l : List α)
    (hl : l.Pairwise (fun a b => le a b = true)) :
    (orderedInsertB le x l).Pairwise (fun a b => le a b = true) := by
  induction l with
  | nil => simp [orderedInsertB]
  | cons y rest ih =>
    rcases List.pairwise_cons.mp hl with ⟨hy, hrest⟩
    by_cases h : le x y = true
    · simp only [orderedInsertB, h, if_true]
      refine List.pairwise_cons.mpr ⟨?_, hl⟩
      intro a ha
      rcases List.mem_cons.mp ha with rfl | ha
      · exact h
      · exact htrans x y a h (hy a ha)
    · simp only [orderedInsertB, h]
      simp only [Bool.false_eq_true, if_false]
      refine List.pairwise_cons.mpr ⟨?_, ih hrest⟩
      intro a ha
      rcases mem_orderedInsertB.mp ha with rfl | ha
      · rcases htot a y with h' | h'
        · exact absurd h' h
        · exact h'
      · exact hy a ha

theorem pairwise_insertionSortB (le : α → α → Bool)
    (htrans : ∀ a b c, le a b = true → le b c = true → le a c = true)
    (htot : ∀ a b, le a b = true ∨ le b a = true) (l : List α) :
    (insertionSortB le l).Pairwise (fun a b => le a b = true) := by
  induction l with
  | nil => simp [insertionSortB]
  | cons x rest ih =>
    exact pairwise_orderedInsertB le htrans htot x _ ih

/-! ## Sum characterizations of the mutual helpers -/

theorem countFoldersSubs_eq (l : List (String × BookmarkFolder)) :
    countFoldersSubs l = (l.map (fun p => count_folders p.2)).sum := by
  induction l with
  | nil => rfl
  | cons p rest ih => cases p; simp [countFoldersSubs, ih]

theorem totalNodesSubs_eq (l : List (String × BookmarkFolder)) :
    totalNodesSubs l = (l.map (fun p => totalNodes p.2)).sum := by
  induction l with
  | nil => rfl
  | cons p rest ih => cases p; simp [totalNodesSubs, ih]

theorem mem_pathsInSubs {l : List (String × BookmarkFolder)} {q : List String} :
    q ∈ pathsInSubs l ↔ ∃ p ∈ l, q = [p.1] ∨ ∃ q', q = p.1 :: q' ∧ q' ∈ pathsIn p.2 := by
  induction l with
  | nil => simp [pathsInSubs]
  | cons p rest ih =>
    cases p with
    | mk k c =>
      simp only [pathsInSubs, List.mem_append, List.mem_cons, List.mem_map, ih]
      constructor
      · rintro ((h | ⟨q', hq', rfl⟩) | ⟨p, hp, h⟩)
        · exact ⟨(k, c), Or.inl rfl, Or.inl h⟩
        · exact ⟨(k, c), Or.inl rfl, Or.inr ⟨q', rfl, hq'⟩⟩
        · exact ⟨p, Or.inr hp, h⟩
      · rintro ⟨p, (rfl | hp), h⟩
        · rcases h with h | ⟨q', rfl, hq'⟩
          · exact Or.inl (Or.inl h)
          · exact Or.inl (Or.inr ⟨q', hq', rfl⟩)
        · exact Or.inr ⟨p, hp, h⟩

theorem mem_allBookmarksSubs {l : List (String × BookmarkFolder)} {b : String} :
    b ∈ allBookmarksSubs l ↔ ∃ p ∈ l, b ∈ allBookmarks p.2 := by
  induction l with
  | nil => simp [allBookmarksSubs]
  | cons p rest ih =>
    cases p with
    | mk k c =>
      simp only [allBookmarksSubs, List.mem_append, List.mem_cons, ih]
      constructor
      · rintro (h | ⟨p, hp, h⟩)
        · exact ⟨(k, c), Or.inl rfl, h⟩
        · exact ⟨p, Or.inr hp, h⟩
      · rintro ⟨p, (rfl | hp), h⟩
        · exact Or.inl h
        · exact Or.inr ⟨p, hp, h⟩

/-! ## `updateSubfolder` and path lookup -/

theorem find?_updateSubfolder_same (k : String) (f : BookmarkFolder → BookmarkFolder)
    (dflt : BookmarkFolder) (l : List (String × BookmarkFolder)) :
    (updateSubfolder k f dflt l).find? (fun p => p.1 = k) =
      some (k, f (match l.find? (fun p => p.1 = k) with
                  | some p => p.2
                  | none => dflt)) := by
  induction l with
  | nil => simp [updateSubfolder, List.find?]
  | cons p rest ih =>
    cases p with
    | mk k' c =>
      by_cases h : k' = k
      · subst h
        simp [updateSubfolder, List.find?]
      · simp only [updateSubfolder, h, if_false]
        have hd : (decide (k' = k)) = false := by simp [h]
        simp [List.find?, hd, ih]

theorem find?_updateSubfolder_other (k k2 : String) (f : BookmarkFolder → BookmarkFolder)
    (dflt : BookmarkFolder) (l : List (String × BookmarkFolder)) (hne : k2 ≠ k) :
    (updateSubfolder k f dflt l).find? (fun p => p.1 = k2) =
      l.find? (fun p => p.1 = k2) := by
  induction l with
  | nil =>
    have hd : (decide (k = k2)) = false := by simp [Ne.symm hne]
    simp [updateSubfolder, List.find?, hd]
  | cons p rest ih =>
    cases p with
    | mk k' c
    => by_cases h : k' = k
       · subst h
         have hd : (decide (k' = k2)) = false := by simp [Ne.symm hne]
         simp [updateSubfolder, List.find?, hd]
       · simp only [updateSubfolder, h, if_false]
         by_cases h2 : k' = k2
         · subst h2
           simp [List.find?]
         · have hd : (decide (k' = k2)) = false := by simp [h2]
           simp [List.find?, hd, ih]

/-! ## Path helper lemmas -/

theorem splitSlash_of_no_slash (l : List Char) (h : '/' ∉ l) : splitSlash l = [l] := by
  induction l with
  | nil => rfl
  | cons c rest ih =>
    have hc : c ≠ '/' := fun hc => h (hc ▸ List.mem_cons_self c rest)
    have hr : '/' ∉ rest := fun hr => h (List.mem_cons_of_mem _ hr)
    simp [splitSlash, hc, ih hr]

theorem stripChars_all_space (l : List Char) (h : ∀ c ∈ l, pyIsSpace c = true) :
    stripChars l = [] := by
  have h1 : l.dropWhile pyIsSpace = [] := by
    rw [List.dropWhile_eq_nil_iff]
    exact h
  simp [stripChars, h1]

/-! ## The `try/except` wrapper `convert_raindrop_to_browser_bookmarks` -/

/-- The result of running a piece of Python code: a value, or an
exception propagating out of it. -/
inductive PyResult (α : Type) where
  | ok (val : α)
  | raised (msg : String)

/-- The body of the `try:` block.  Reading the CSV and writing the output
file are the two operations that can raise (`readResult` is the outcome of
`pd.read_csv`, `writeError` the failure of `open`/`write`, if any); the
pure steps in between never raise.  The value is the list of printed
success messages. -/
def convertBody (readResult : PyResult (List Row)) (writeError : Option String)
    (now localOff : Int) (outputFile : String) : PyResult (List String) :=
  match readResult with
  | .raised e => .raised e
  | .ok df =>
    let root := create_folder_structure df now localOff
    match writeError with
    | some e => .raised e
    | none =>
      .ok ["Successfully converted bookmarks to " ++ outputFile,
           "Total bookmarks processed: " ++ pyIntRepr (df.length : Int),
           "Number of folders: " ++ pyIntRepr (count_folders root : Int)]

/-- `convert_raindrop_to_browser_bookmarks(input_csv, output_file)`: the
entire body runs under `try: ... except Exception as e:`; a raised
exception is caught and turned into the single printed line
`Error converting bookmarks: {e}`.  The value is the list of printed
lines; no exception escapes. -/
def convert_raindrop_to_browser_bookmarks (readResult : PyResult (List Row))
    (writeError : Option String) (now localOff : Int) (outputFile : String) :
    List String :=
  match convertBody readResult writeError now localOff outputFile with
  | .ok msgs => msgs
  | .raised e => ["Error converting bookmarks: " ++ e]

/-! ## Counting nodes (claim C8 support) -/

theorem sum_totalNodes_of_pointwise (l : List (String × BookmarkFolder))
    (h : ∀ p ∈ l, count_folders p.2 + 1 = totalNodes p.2) :
    (l.map (fun p => totalNodes p.2)).sum
      = (l.map (fun p => count_folders p.2)).sum + l.length := by
  induction l with
  | nil => simp
  | cons p rest ih =>
    simp only [List.map_cons, List.sum_cons, List.length_cons]
    rw [ih (fun q hq => h q (List.mem_cons_of_mem _ hq)),
      ← h p (List.mem_cons_self _ _)]
    omega

theorem count_folders_succ (t : BookmarkFolder) :
    count_folders t + 1 = totalNodes t := by
  refine folderInduction (fun t => count_folders t + 1 = totalNodes t) ?_ t
  intro n subs marks ih
  simp only [count_folders, totalNodes, countFoldersSubs_eq, totalNodesSubs_eq]
  rw [sum_totalNodes_of_pointwise subs ih]
  omega

/-! ## Claims -/

/-- C8: for every built tree, the folder count computed by the nested
`count_folders` helper equals the number of distinct non-root
`BookmarkFolder` nodes reachable from the root (every node of the tree
except the root itself). -/
theorem c8_count_folders_eq_nonroot_nodes (t : BookmarkFolder) :
    count_folders t = totalNodes t - 1 := by
  have h := count_folders_succ t
  omega

/-- C2 counterexample: a present but whitespace-only (blank) title is NOT
replaced by the url — `pd.notna(' ')` holds, so the blank string is used
as the title, and the rendered entry's visible text is the escaped blank,
not the escaped url. -/
theorem c2_counterexample :
    effectiveTitle ⟨some " ", "http://example.com/p", none, none⟩ = " " ∧
    (" " : String) ≠ "http://example.com/p" ∧
    rowBookmarkHtml ⟨some " ", "http://example.com/p", none, none⟩ 5 0
      = "<DT><A HREF=\"http://example.com/p\" ADD_DATE=\"5\"> </A>" ∧
    rowBookmarkHtml ⟨some " ", "http://example.com/p", none, none⟩ 5 0
      ≠ "<DT><A HREF=\"http://example.com/p\" ADD_DATE=\"5\">"
          ++ html_escape "http://example.com/p" ++ "</A>" := by
  refine ⟨rfl, by decide, rfl, by decide⟩

/-- C2 (amended): only an absent (NaN) title falls back to the row's url;
for such a row the produced title equals the url and the rendered entry's
visible text (the segment between `>` and `</A>`) is the escaped url.
A present-but-blank title is used verbatim. -/
theorem c2_absent_title_falls_back (url : String) (folder created : Option String)
    (now localOff : Int) :
    effectiveTitle ⟨none, url, folder, created⟩ = url ∧
    rowBookmarkHtml ⟨none, url, folder, created⟩ now localOff
      = "<DT><A HREF=\"" ++ html_escape url ++ "\" ADD_DATE=\""
          ++ pyIntRepr (bookmarkAddDate created now localOff) ++ "\">"
          ++ html_escape url ++ "</A>" :=
  ⟨rfl, rfl⟩

/-- C6: an absent, blank, or unparsable `created` value is not an error:
the ADD_DATE written for the row is exactly the current wall-clock time
`now` (the model's parameter for `datetime.now().timestamp()`). -/
theorem c6_created_fallback (created : Option String) (now localOff : Int)
    (h : created = none ∨ created = some "" ∨
      ∃ s, created = some s ∧ isoTimestamp (replaceZOffset s) localOff = none) :
    bookmarkAddDate created now localOff = now := by
  rcases h with rfl | rfl | ⟨s, rfl, hp⟩
  · rfl
  · rfl
  · by_cases hs : s = ""
    · subst hs; rfl
    · simp [bookmarkAddDate, hs, hp]

/-- Witness for C6 at the unparsable value `"garbage"`. -/
theorem c6_witness :
    ((some "garbage" : Option String) = none ∨ (some "garbage" : Option String) = some "" ∨
      ∃ s, (some "garbage" : Option String) = some s ∧
        isoTimestamp (replaceZOffset s) 0 = none) ∧
    bookmarkAddDate (some "garbage") 123 0 = 123 :=
  ⟨Or.inr (Or.inr ⟨"garbage", rfl, by decide⟩),
   c6_created_fallback (some "garbage") 123 0 (Or.inr (Or.inr ⟨"garbage", rfl, by decide⟩))⟩

/-- C9: any exception raised inside the conversion run (unreadable input,
unwritable output, …) is caught by the `try/except` wrapper: the run
returns normally and the only surfaced behaviour is the single
human-readable message `Error converting bookmarks: {e}`. -/
theorem c9_failures_caught (readResult : PyResult (List Row))
    (writeError : Option String) (now localOff : Int) (outputFile : String)
    (e : String)
    (h : convertBody readResult writeError now localOff outputFile = .raised e) :
    convert_raindrop_to_browser_bookmarks readResult writeError now localOff outputFile
      = ["Error converting bookmarks: " ++ e] := by
  rw [convert_raindrop_to_browser_bookmarks, h]

/-- Witness for C9 at a failing CSV read. -/
theorem c9_witness :
    convertBody (.raised "boom") none 0 0 "bookmarks.html" = .raised "boom" ∧
    convert_raindrop_to_browser_bookmarks (.raised "boom") none 0 0 "bookmarks.html"
      = ["Error converting bookmarks: boom"] :=
  ⟨rfl, c9_failures_caught (.raised "boom") none 0 0 "bookmarks.html" "boom" rfl⟩

/-- C1 counterexample: two rows with folder paths `"X"` and `"x"` do NOT
end up under the same `BookmarkFolder` — the tree keeps two sibling
folders, each holding exactly one of the two (distinct) entries, because
dict-key matching is case-sensitive. -/
theorem c1_counterexample :
    bookmarksAt (create_folder_structure
        [⟨some "t1", "u1", some "X", none⟩, ⟨some "t2", "u2", some "x", none⟩] 0 0) ["X"]
      = [rowBookmarkHtml ⟨some "t1", "u1", some "X", none⟩ 0 0] ∧
    bookmarksAt (create_folder_structure
        [⟨some "t1", "u1", some "X", none⟩, ⟨some "t2", "u2", some "x", none⟩] 0 0) ["x"]
      = [rowBookmarkHtml ⟨some "t2", "u2", some "x", none⟩ 0 0] ∧
    (create_folder_structure
        [⟨some "t1", "u1", some "X", none⟩, ⟨some "t2", "u2", some "x", none⟩] 0 0).subfolders.length = 2 ∧
    rowBookmarkHtml ⟨some "t1", "u1", some "X", none⟩ 0 0
      ≠ rowBookmarkHtml ⟨some "t2", "u2", some "x", none⟩ 0 0 :=
  ⟨rfl, rfl, rfl, by decide⟩

/-- C1 (amended): folder-path matching is case-sensitive — for any two
rows whose folder paths are `"X"` and `"x"`, the builder places the two
entries under two different sibling nodes, addressed by the two distinct
paths. -/
theorem c1_case_sensitive_placement (t1 t2 : Option String) (u1 u2 : String)
    (cr1 cr2 : Option String) (now localOff : Int) :
    bookmarksAt (create_folder_structure
        [⟨t1, u1, some "X", cr1⟩, ⟨t2, u2, some "x", cr2⟩] now localOff) ["X"]
      = [rowBookmarkHtml ⟨t1, u1, some "X", cr1⟩ now localOff] ∧
    bookmarksAt (create_folder_structure
        [⟨t1, u1, some "X", cr1⟩, ⟨t2, u2, some "x", cr2⟩] now localOff) ["x"]
      = [rowBookmarkHtml ⟨t2, u2, some "x", cr2⟩ now localOff] ∧
    (["X"] : List String) ≠ ["x"] :=
  ⟨rfl, rfl, by decide⟩

/-- C3 counterexample: a whitespace-only folder path does NOT behave like
an absent one — `" "` is truthy, `" ".split('/')` is `[" "]`, and the
stripped segment `""` creates a fresh folder node with empty name that
receives the entry, while the root's own entry list stays empty. -/
theorem c3_counterexample :
    (create_folder_structure [⟨some "t", "u", some " ", none⟩] 7 0).bookmarks = [] ∧
    (create_folder_structure [⟨some "t", "u", some " ", none⟩] 7 0).subfolders.length = 1 ∧
    bookmarksAt (create_folder_structure [⟨some "t", "u", some " ", none⟩] 7 0) [""]
      = [rowBookmarkHtml ⟨some "t", "u", some " ", none⟩ 7 0] :=
  ⟨rfl, rfl, rfl⟩

/-- C3 (amended): a non-empty whitespace-only folder path trims to the
single segment `""`, so the entry is attached to a child `BookmarkFolder`
with empty name (created on demand), and the root's own entry list is
unchanged. -/
theorem c3_blank_path_creates_empty_named_child (w : String) (t : BookmarkFolder)
    (b : String) (hw : w ≠ "") (hsp : ∀ c ∈ w.data, pyIsSpace c = true) :
    folderSegs (some w) = [""] ∧
    (add_to_folder_structure t (some w) b).bookmarks = t.bookmarks ∧
    bookmarksAt (add_to_folder_structure t (some w) b) [""]
      = bookmarksAt t [""] ++ [b] := by
  have hns : '/' ∉ w.data := by
    intro hm
    have := hsp '/' hm
    simp [pyIsSpace] at this
  have hseg : folderSegs (some w) = [""] := by
    simp [folderSegs, hw, splitSlash_of_no_slash _ hns, stripChars_all_space _ hsp]
  refine ⟨hseg, ?_, ?_⟩
  · rw [add_to_folder_structure, hseg]
    cases t
    simp [addAlong]
  · rw [add_to_folder_structure, hseg]
    cases t with
    | mk n subs marks =>
      simp only [addAlong]
      rw [bookmarksAt, lookupPath]
      simp only [BookmarkFolder.subfolders_mk]
      rw [find?_updateSubfolder_same]
      rw [bookmarksAt, lookupPath]
      simp only [BookmarkFolder.subfolders_mk]
      cases hf : subs.find? (fun p => p.1 = "") with
      | none =>
        simp only [hf]
        rw [lookupPath]
        simp [addAlong, lookupPath, BookmarkFolder.bookmarks]
      | some p =>
        simp only [hf]
        rw [lookupPath]
        cases hp2 : p.2 with
        | mk n2 subs2 marks2 =>
          simp [addAlong, lookupPath, BookmarkFolder.bookmarks]

/-- Witness for C3 (amended) at `w = " "` on the empty root. -/
theorem c3_witness :
    ((" " : String) ≠ "" ∧ ∀ c ∈ (" " : String).data, pyIsSpace c = true) ∧
    (folderSegs (some " ") = [""] ∧
     (add_to_folder_structure (.mk "root" [] []) (some " ") "m").bookmarks
       = (BookmarkFolder.mk "root" [] []).bookmarks ∧
     bookmarksAt (add_to_folder_structure (.mk "root" [] []) (some " ") "m") [""]
       = bookmarksAt (.mk "root" [] []) [""] ++ ["m"]) :=
  ⟨⟨by decide, by decide⟩,
   c3_blank_path_creates_empty_named_child " " (.mk "root" [] []) "m"
     (by decide) (by decide)⟩

/-- C4 counterexample: the renderer detects the root by the NAME `"root"`,
so a genuine (non-root) folder that happens to be named `"root"` — here
created from a row with folder path `"root"` — is rendered with no
folder-header line, no `<DL><p>`, no indentation and no `</DL><p>`,
contradicting the claim for "every non-root FolderNode … including a
folder named root". -/
theorem c4_counterexample :
    (create_folder_structure [⟨some "T", "u", some "root", none⟩] 7 0).subfolders
      = [("root", .mk "root" [] ["<DT><A HREF=\"u\" ADD_DATE=\"7\">T</A>"])] ∧
    generate_folder_html (.mk "root" [] ["<DT><A HREF=\"u\" ADD_DATE=\"7\">T</A>"]) 0
      = ["<DT><A HREF=\"u\" ADD_DATE=\"7\">T</A>"] ∧
    generate_folder_html (.mk "root" [] ["<DT><A HREF=\"u\" ADD_DATE=\"7\">T</A>"]) 0
      ≠ ["<DT><H3>root</H3>", "<DL><p>",
         "    <DT><A HREF=\"u\" ADD_DATE=\"7\">T</A>", "</DL><p>"] := by
  refine ⟨rfl, ?_, ?_⟩
  · rw [generate_folder_html_root]
    decide
  · rw [generate_folder_html_root]
    decide

/-- C4 (amended): for every folder whose NAME is not `"root"` the renderer
emits the escaped folder-header line, a list-open line, the folder's
direct entries one indentation level deeper, the child folders recursively
in case-insensitive ascending order of name (`subfolderLe` compares the
lowercased names), and a list-close line. -/
theorem c4_nonroot_folder_rendering (f : BookmarkFolder) (level : Nat)
    (h : f.name ≠ "root") :
    generate_folder_html f level =
      [indentStr level ++ "<DT><H3>" ++ html_escape f.name ++ "</H3>",
       indentStr level ++ "<DL><p>"]
      ++ f.bookmarks.map (fun b => indentStr (level + 1) ++ b)
      ++ ((sortedSubfolders f).map
           (fun c => generate_folder_html c.2 (level + 1))).flatten
      ++ [indentStr level ++ "</DL><p>"]
    ∧ List.Pairwise (fun a b => subfolderLe a b = true) (sortedSubfolders f)
    ∧ (sortedSubfolders f).Perm f.subfolders := by
  obtain ⟨n, subs, marks⟩ := f
  refine ⟨?_, ?_, ?_⟩
  · simpa using generate_folder_html_nonroot n subs marks level (by simpa using h)
  · exact pairwise_insertionSortB subfolderLe
      (fun a b c h1 h2 => subfolderLe_trans h1 h2) subfolderLe_total subs
  · exact perm_insertionSortB _ _

/-- Witness for C4 (amended) at a leaf folder named `"A"`. -/
theorem c4_witness :
    (BookmarkFolder.mk "A" [] ["b"]).name ≠ "root" ∧
    generate_folder_html (.mk "A" [] ["b"]) 0
      = ["<DT><H3>A</H3>", "<DL><p>", "    b", "</DL><p>"] ∧
    List.Pairwise (fun a b => subfolderLe a b = true)
      (sortedSubfolders (.mk "A" [] ["b"])) ∧
    (sortedSubfolders (.mk "A" [] ["b"])).Perm
      (BookmarkFolder.mk "A" [] ["b"]).subfolders := by
  have h := c4_nonroot_folder_rendering (.mk "A" [] ["b"]) 0 (by decide)
  refine ⟨by decide, ?_, h.2.1, h.2.2⟩
  rw [h.1]
  decide

set_option maxRecDepth 8000 in
/-- C5: the full pipeline on the single row
(folder `"A/B"`, title `"T"`, url `"http://x"`,
created `"2024-01-01T00:00:00Z"`) produces exactly the expected document:
under the headers `A` then `B`, two list-levels deep (8 spaces of indent),
the line `<DT><A HREF="http://x" ADD_DATE="1704067200">T</A>` — the
ISO timestamp is converted to epoch seconds 1704067200. -/
theorem c5_round_trip (now localOff : Int) :
    generate_bookmarks_html
      (create_folder_structure
        [⟨some "T", "http://x", some "A/B", some "2024-01-01T00:00:00Z"⟩] now localOff) =
    "<!DOCTYPE NETSCAPE-Bookmark-file-1>\n<!-- This is an automatically generated file.\n     It will be read and overwritten.\n     DO NOT EDIT! -->\n<META HTTP-EQUIV=\"Content-Type\" CONTENT=\"text/html; charset=UTF-8\">\n<TITLE>Bookmarks</TITLE>\n<H1>Bookmarks</H1>\n<DL><p>\n<DT><H3>A</H3>\n<DL><p>\n    <DT><H3>B</H3>\n    <DL><p>\n        <DT><A HREF=\"http://x\" ADD_DATE=\"1704067200\">T</A>\n    </DL><p>\n</DL><p>\n</DL><p>" := by
  have ht : create_folder_structure
      [⟨some "T", "http://x", some "A/B", some "2024-01-01T00:00:00Z"⟩] now localOff =
      .mk "root" [("A", .mk "A" [("B", .mk "B" []
        ["<DT><A HREF=\"http://x\" ADD_DATE=\"1704067200\">T</A>"])] [])] [] := rfl
  rw [generate_bookmarks_html, ht]
  have hB : generate_folder_html
      (.mk "B" [] ["<DT><A HREF=\"http://x\" ADD_DATE=\"1704067200\">T</A>"]) (0 + 1) =
      ["    <DT><H3>B</H3>", "    <DL><p>",
       "        <DT><A HREF=\"http://x\" ADD_DATE=\"1704067200\">T</A>", "    </DL><p>"] := by
    rw [generate_folder_html_nonroot _ _ _ _ (by decide)]
    decide
  have hA : generate_folder_html
      (.mk "A" [("B", .mk "B" [] ["<DT><A HREF=\"http://x\" ADD_DATE=\"1704067200\">T</A>"])] []) 0 =
      ["<DT><H3>A</H3>", "<DL><p>",
       "    <DT><H3>B</H3>", "    <DL><p>",
       "        <DT><A HREF=\"http://x\" ADD_DATE=\"1704067200\">T</A>", "    </DL><p>",
       "</DL><p>"] := by
    rw [generate_folder_html_nonroot _ _ _ _ (by decide),
        show sortedSubfolders (.mk "A" [("B", .mk "B" []
          ["<DT><A HREF=\"http://x\" ADD_DATE=\"1704067200\">T</A>"])] []) =
          [("B", .mk "B" [] ["<DT><A HREF=\"http://x\" ADD_DATE=\"1704067200\">T</A>"])] from rfl,
        List.map_cons, List.map_nil, hB]
    decide
  have hroot : generate_folder_html
      (.mk "root" [("A", .mk "A" [("B", .mk "B" []
        ["<DT><A HREF=\"http://x\" ADD_DATE=\"1704067200\">T</A>"])] [])] []) 0 =
      ["<DT><H3>A</H3>", "<DL><p>",
       "    <DT><H3>B</H3>", "    <DL><p>",
       "        <DT><A HREF=\"http://x\" ADD_DATE=\"1704067200\">T</A>", "    </DL><p>",
       "</DL><p>"] := by
    rw [generate_folder_html_root,
        show sortedSubfolders (.mk "root" [("A", .mk "A" [("B", .mk "B" []
          ["<DT><A HREF=\"http://x\" ADD_DATE=\"1704067200\">T</A>"])] [])] []) =
          [("A", .mk "A" [("B", .mk "B" []
            ["<DT><A HREF=\"http://x\" ADD_DATE=\"1704067200\">T</A>"])] [])] from rfl,
        List.map_cons, List.map_nil, hA]
    decide
  rw [bookmarksDocumentLines, hroot]
  decide

/-! ## Claim C7: effect of the pre-sort -/

theorem pathsIn_mk (n : String) (subs : List (String × BookmarkFolder))
    (marks : List String) :
    pathsIn (.mk n subs marks) = pathsInSubs subs := rfl

theorem mem_pathsInSubs_cons {k : String} {c : BookmarkFolder}
    {restS : List (String × BookmarkFolder)} {q : List String} :
    q ∈ pathsInSubs ((k, c) :: restS) ↔
      (q = [k] ∨ ∃ a, a ∈ pathsIn c ∧ k :: a = q) ∨ q ∈ pathsInSubs restS := by
  simp only [pathsInSubs, List.mem_append, List.mem_cons, List.mem_map]

theorem mem_pathsInSubs_update (seg : String) (g : BookmarkFolder → BookmarkFolder)
    (d : BookmarkFolder) (S : List String → Prop)
    (hg : ∀ (c : BookmarkFolder) (q : List String),
      q ∈ pathsIn (g c) ↔ q ∈ pathsIn c ∨ S q)
    (hd : pathsIn d = []) (subs : List (String × BookmarkFolder)) (q : List String) :
    q ∈ pathsInSubs (updateSubfolder seg g d subs) ↔
      q ∈ pathsInSubs subs ∨ q = [seg] ∨ ∃ a, q = seg :: a ∧ S a := by
  induction subs with
  | nil =>
    rw [show updateSubfolder seg g d [] = [(seg, g d)] from rfl]
    rw [mem_pathsInSubs_cons]
    constructor
    · rintro ((rfl | ⟨a, ha, rfl⟩) | h)
      · exact Or.inr (Or.inl rfl)
      · rcases (hg d a).mp ha with h' | hs
        · rw [hd] at h'
          exact absurd h' (List.not_mem_nil a)
        · exact Or.inr (Or.inr ⟨a, rfl, hs⟩)
      · exact absurd h (by simp [pathsInSubs])
    · rintro (h | rfl | ⟨a, rfl, hs⟩)
      · exact absurd h (by simp [pathsInSubs])
      · exact Or.inl (Or.inl rfl)
      · exact Or.inl (Or.inr ⟨a, (hg d a).mpr (Or.inr hs), rfl⟩)
  | cons p restS ihs =>
    cases p with
    | mk k c =>
      by_cases hk : k = seg
      · subst hk
        rw [show updateSubfolder k g d ((k, c) :: restS) = (k, g c) :: restS from by
          simp [updateSubfolder]]
        rw [mem_pathsInSubs_cons, mem_pathsInSubs_cons]
        constructor
        · rintro ((rfl | ⟨a, ha, rfl⟩) | h)
          · exact Or.inl (Or.inl (Or.inl rfl))
          · rcases (hg c a).mp ha with h' | hs
            · exact Or.inl (Or.inl (Or.inr ⟨a, h', rfl⟩))
            · exact Or.inr (Or.inr ⟨a, rfl, hs⟩)
          · exact Or.inl (Or.inr h)
        · rintro (((rfl | ⟨a, ha, rfl⟩) | h) | rfl | ⟨a, rfl, hs⟩)
          · exact Or.inl (Or.inl rfl)
          · exact Or.inl (Or.inr ⟨a, (hg c a).mpr (Or.inl ha), rfl⟩)
          · exact Or.inr h
          · exact Or.inl (Or.inl rfl)
          · exact Or.inl (Or.inr ⟨a, (hg c a).mpr (Or.inr hs), rfl⟩)
      · rw [show updateSubfolder seg g d ((k, c) :: restS)
            = (k, c) :: updateSubfolder seg g d restS from by
          simp [updateSubfolder, hk]]
        rw [mem_pathsInSubs_cons, mem_pathsInSubs_cons]
        constructor
        · rintro (h | h2)
          · exact Or.inl (Or.inl h)
          · rcases ihs.mp h2 with h3 | rfl | ⟨a, rfl, hs⟩
            · exact Or.inl (Or.inr h3)
            · exact Or.inr (Or.inl rfl)
            · exact Or.inr (Or.inr ⟨a, rfl, hs⟩)
        · rintro ((h | h3) | rfl | ⟨a, rfl, hs⟩)
          · exact Or.inl h
          · exact Or.inr (ihs.mpr (Or.inl h3))
          · exact Or.inr (ihs.mpr (Or.inr (Or.inl rfl)))
          · exact Or.inr (ihs.mpr (Or.inr (Or.inr ⟨a, rfl, hs⟩)))

/-- Adding one bookmark along `segs` adds exactly the nonempty name-path
prefixes of `segs` to the tree's folder addresses. -/
theorem mem_pathsIn_addAlong (segs : List String) (b : String) :
    ∀ (t : BookmarkFolder) (q : List String),
    q ∈ pathsIn (addAlong segs t b) ↔ q ∈ pathsIn t ∨ (q ≠ [] ∧ q <+: segs) := by
  induction segs with
  | nil =>
    intro t q
    cases t with
    | mk n subs marks => simp [addAlong, pathsIn_mk]
  | cons seg rest ih =>
    intro t q
    cases t with
    | mk n subs marks =>
      simp only [addAlong, pathsIn_mk]
      rw [mem_pathsInSubs_update seg (fun c => addAlong rest c b) (.mk seg [] [])
        (fun q' => q' ≠ [] ∧ q' <+: rest) (fun c q' => ih c q') rfl subs q]
      constructor
      · rintro (h | rfl | ⟨a, rfl, hne, hp⟩)
        · exact Or.inl h
        · exact Or.inr ⟨by simp, List.cons_prefix_cons.mpr ⟨rfl, List.nil_prefix⟩⟩
        · exact Or.inr ⟨by simp, List.cons_prefix_cons.mpr ⟨rfl, hp⟩⟩
      · rintro (h | ⟨hne, hp⟩)
        · exact Or.inl h
        · cases q with
          | nil => exact absurd rfl hne
          | cons x q' =>
            rcases List.cons_prefix_cons.mp hp with ⟨rfl, hp'⟩
            cases q' with
            | nil => exact Or.inr (Or.inl rfl)
            | cons y q'' =>
              exact Or.inr (Or.inr ⟨y :: q'', rfl, by simp, hp'⟩)

/-- The folder addresses of the built tree are exactly the nonempty
prefixes of the rows' segment lists — a characterization independent of
processing order. -/
theorem mem_pathsIn_fold (g : Row → String) :
    ∀ (rows : List Row) (t : BookmarkFolder) (q : List String),
    q ∈ pathsIn (rows.foldl (fun acc r => add_to_folder_structure acc r.folder (g r)) t) ↔
      q ∈ pathsIn t ∨ ∃ r ∈ rows, q ≠ [] ∧ q <+: folderSegs r.folder := by
  intro rows
  induction rows with
  | nil => simp
  | cons r rest ih =>
    intro t q
    simp only [List.foldl_cons]
    rw [ih]
    constructor
    · rintro (h1 | ⟨r', hr', hq⟩)
      · rw [add_to_folder_structure] at h1
        rcases (mem_pathsIn_addAlong _ _ _ _).mp h1 with h | hs
        · exact Or.inl h
        · exact Or.inr ⟨r, List.mem_cons_self _ _, hs⟩
      · exact Or.inr ⟨r', List.mem_cons_of_mem _ hr', hq⟩
    · rintro (h | ⟨r', hr', hq⟩)
      · exact Or.inl ((mem_pathsIn_addAlong _ _ _ _).mpr (Or.inl h))
      · rcases List.mem_cons.mp hr' with rfl | hr''
        · exact Or.inl ((mem_pathsIn_addAlong _ _ _ _).mpr (Or.inr hq))
        · exact Or.inr ⟨r', hr'', hq⟩

set_option maxRecDepth 8000 in
/-- C7 counterexample: sorting by the raw folder-path STRING can reorder
two rows that resolve to the SAME folder node (here `"A "` and `"A"`,
whose stripped segment is `"A"` in both cases), so the pre-sorted build
and the original-order build render different documents — the two entry
lines inside folder `A` appear in opposite orders. -/
theorem c7_counterexample :
    generate_bookmarks_html (create_folder_structure
      [⟨some "t1", "u1", some "A ", none⟩, ⟨some "t2", "u2", some "A", none⟩] 0 0)
    ≠ generate_bookmarks_html (createFolderStructureUnsorted
      [⟨some "t1", "u1", some "A ", none⟩, ⟨some "t2", "u2", some "A", none⟩] 0 0) := by
  have h1 : create_folder_structure
      [⟨some "t1", "u1", some "A ", none⟩, ⟨some "t2", "u2", some "A", none⟩] 0 0
      = .mk "root" [("A", .mk "A" []
          ["<DT><A HREF=\"u2\" ADD_DATE=\"0\">t2</A>",
           "<DT><A HREF=\"u1\" ADD_DATE=\"0\">t1</A>"])] [] := rfl
  have h2 : createFolderStructureUnsorted
      [⟨some "t1", "u1", some "A ", none⟩, ⟨some "t2", "u2", some "A", none⟩] 0 0
      = .mk "root" [("A", .mk "A" []
          ["<DT><A HREF=\"u1\" ADD_DATE=\"0\">t1</A>",
           "<DT><A HREF=\"u2\" ADD_DATE=\"0\">t2</A>"])] [] := rfl
  rw [generate_bookmarks_html, generate_bookmarks_html, h1, h2]
  have hA1 : generate_folder_html (.mk "A" []
      ["<DT><A HREF=\"u2\" ADD_DATE=\"0\">t2</A>",
       "<DT><A HREF=\"u1\" ADD_DATE=\"0\">t1</A>"]) 0 =
      ["<DT><H3>A</H3>", "<DL><p>",
       "    <DT><A HREF=\"u2\" ADD_DATE=\"0\">t2</A>",
       "    <DT><A HREF=\"u1\" ADD_DATE=\"0\">t1</A>", "</DL><p>"] := by
    rw [generate_folder_html_nonroot _ _ _ _ (by decide)]
    decide
  have hA2 : generate_folder_html (.mk "A" []
      ["<DT><A HREF=\"u1\" ADD_DATE=\"0\">t1</A>",
       "<DT><A HREF=\"u2\" ADD_DATE=\"0\">t2</A>"]) 0 =
      ["<DT><H3>A</H3>", "<DL><p>",
       "    <DT><A HREF=\"u1\" ADD_DATE=\"0\">t1</A>",
       "    <DT><A HREF=\"u2\" ADD_DATE=\"0\">t2</A>", "</DL><p>"] := by
    rw [generate_folder_html_nonroot _ _ _ _ (by decide)]
    decide
  have hr1 : generate_folder_html (.mk "root" [("A", .mk "A" []
      ["<DT><A HREF=\"u2\" ADD_DATE=\"0\">t2</A>",
       "<DT><A HREF=\"u1\" ADD_DATE=\"0\">t1</A>"])] []) 0 =
      ["<DT><H3>A</H3>", "<DL><p>",
       "    <DT><A HREF=\"u2\" ADD_DATE=\"0\">t2</A>",
       "    <DT><A HREF=\"u1\" ADD_DATE=\"0\">t1</A>", "</DL><p>"] := by
    rw [generate_folder_html_root,
        show sortedSubfolders (.mk "root" [("A", .mk "A" []
          ["<DT><A HREF=\"u2\" ADD_DATE=\"0\">t2</A>",
           "<DT><A HREF=\"u1\" ADD_DATE=\"0\">t1</A>"])] [])
          = [("A", .mk "A" []
              ["<DT><A HREF=\"u2\" ADD_DATE=\"0\">t2</A>",
               "<DT><A HREF=\"u1\" ADD_DATE=\"0\">t1</A>"])] from rfl,
        List.map_cons, List.map_nil, hA1]
    decide
  have hr2 : generate_folder_html (.mk "root" [("A", .mk "A" []
      ["<DT><A HREF=\"u1\" ADD_DATE=\"0\">t1</A>",
       "<DT><A HREF=\"u2\" ADD_DATE=\"0\">t2</A>"])] []) 0 =
      ["<DT><H3>A</H3>", "<DL><p>",
       "    <DT><A HREF=\"u1\" ADD_DATE=\"0\">t1</A>",
       "    <DT><A HREF=\"u2\" ADD_DATE=\"0\">t2</A>", "</DL><p>"] := by
    rw [generate_folder_html_root,
        show sortedSubfolders (.mk "root" [("A", .mk "A" []
          ["<DT><A HREF=\"u1\" ADD_DATE=\"0\">t1</A>",
           "<DT><A HREF=\"u2\" ADD_DATE=\"0\">t2</A>"])] [])
          = [("A", .mk "A" []
              ["<DT><A HREF=\"u1\" ADD_DATE=\"0\">t1</A>",
               "<DT><A HREF=\"u2\" ADD_DATE=\"0\">t2</A>"])] from rfl,
        List.map_cons, List.map_nil, hA2]
    decide
  rw [bookmarksDocumentLines, bookmarksDocumentLines, hr1, hr2]
  decide

/-- C7 (amended): the pre-sort is not output-neutral in general (see the
counterexample), but the folder SKELETON is: the sorted and the
original-order builds produce trees with exactly the same folder
addresses (name-paths), since each address appears iff it is a nonempty
prefix of some row's segment list. -/
theorem c7_folder_skeleton_order_independent (rows : List Row)
    (now localOff : Int) (q : List String) :
    q ∈ pathsIn (create_folder_structure rows now localOff) ↔
    q ∈ pathsIn (createFolderStructureUnsorted rows now localOff) := by
  rw [create_folder_structure, createFolderStructureUnsorted]
  rw [mem_pathsIn_fold (fun r => rowBookmarkHtml r now localOff) (insertionSortB rowLe rows),
      mem_pathsIn_fold (fun r => rowBookmarkHtml r now localOff) rows]
  simp only [pathsIn_mk, pathsInSubs, List.not_mem_nil, false_or]
  constructor
  · rintro ⟨r, hr, hq⟩
    exact ⟨r, mem_insertionSortB.mp hr, hq⟩
  · rintro ⟨r, hr, hq⟩
    exact ⟨r, mem_insertionSortB.mpr hr, hq⟩

/-! ## Claim C10: list-balance of the document

"Lines containing the list-open tag" is formalized as: the tag's
character list is an infix (contiguous sublist) of the line's character
list.  `hasTrip a b c` decides whether the three-character pattern
`a b c` occurs contiguously; both tags are recognized by their first
three characters (`<DL` resp. `</D`), and escaped user text cannot
contain `<`, so no emitted line contains a tag by accident. -/

def startsWith2 (b c : Char) : List Char → Bool
  | y :: z :: _ => decide (y = b) && decide (z = c)
  | _ => false

def hasTrip (a b c : Char) : List Char → Bool
  | [] => false
  | x :: rest => (decide (x = a) && startsWith2 b c rest) || hasTrip a b c rest

theorem hasTrip_nil (a b c : Char) : hasTrip a b c [] = false := rfl

theorem hasTrip_cons (a b c x : Char) (l : List Char) :
    hasTrip a b c (x :: l)
      = ((decide (x = a) && startsWith2 b c l) || hasTrip a b c l) := rfl

theorem hasTrip_of_occurs {a b c : Char} {l : List Char}
    (h : [a, b, c] <:+: l) : hasTrip a b c l = true := by
  obtain ⟨s, t, rfl⟩ := h
  induction s with
  | nil => simp [hasTrip, startsWith2]
  | cons x s' ih =>
    rw [List.append_assoc] at ih
    have hgoal : (x :: s') ++ [a, b, c] ++ t = x :: (s' ++ ([a, b, c] ++ t)) := by
      simp
    rw [hgoal, hasTrip_cons, ih]
    simp

theorem hasTrip_append_left {a b c : Char} {l₁ l₂ : List Char}
    (h : (a : Char) ∉ l₁) : hasTrip a b c (l₁ ++ l₂) = hasTrip a b c l₂ := by
  induction l₁ with
  | nil => rfl
  | cons x rest ih =>
    have hx : x ≠ a := fun hc => h (hc ▸ List.mem_cons_self x rest)
    have hr : a ∉ rest := fun hr => h (List.mem_cons_of_mem _ hr)
    rw [List.cons_append, hasTrip_cons, ih hr]
    simp [hx]

theorem startsWith2_stable {b c : Char} {t l₂ : List Char}
    (h : ∀ x y : Char, startsWith2 b c (t ++ [x, y]) = false) :
    startsWith2 b c (t ++ l₂) = false := by
  cases t with
  | nil =>
    cases l₂ with
    | nil => rfl
    | cons z l₂' =>
      cases l₂' with
      | nil => rfl
      | cons w l₂'' =>
        have := h z w
        simp [startsWith2] at this ⊢
        intro hb
        exact (this hb)
  | cons y t' =>
    cases t' with
    | nil =>
      cases l₂ with
      | nil => rfl
      | cons z l₂' =>
        have := h z z
        simp [startsWith2] at this ⊢
        intro hb
        exact (this hb)
    | cons z t'' =>
      have := h 'a' 'a'
      simp [startsWith2] at this ⊢
      intro hb
      exact (this hb)

theorem hasTrip_append_closed {a b c : Char} {l₁ l₂ : List Char}
    (h1 : ∀ x y : Char, hasTrip a b c (l₁ ++ [x, y]) = false)
    (h2 : hasTrip a b c l₂ = false) :
    hasTrip a b c (l₁ ++ l₂) = false := by
  induction l₁ with
  | nil => exact h2
  | cons x t ih =>
    have hrec : ∀ x' y' : Char, hasTrip a b c (t ++ [x', y']) = false := by
      intro x' y'
      have := h1 x' y'
      rw [List.cons_append, hasTrip_cons] at this
      exact (Bool.or_eq_false_iff.mp this).2
    have hwin : ∀ x' y' : Char, (decide (x = a) && startsWith2 b c (t ++ [x', y'])) = false := by
      intro x' y'
      have := h1 x' y'
      rw [List.cons_append, hasTrip_cons] at this
      exact (Bool.or_eq_false_iff.mp this).1
    rw [List.cons_append, hasTrip_cons, ih hrec]
    by_cases hx : x = a
    · subst hx
      have hsw : ∀ x' y' : Char, startsWith2 b c (t ++ [x', y']) = false := by
        intro x' y'
        have := hwin x' y'
        simpa using this
      rw [startsWith2_stable hsw]
      simp
    · simp [hx]

def openTag : String := "<DL><p>"

def closeTag : String := "</DL><p>"

def countTagLines (tag : String) (lines : List String) : Nat :=
  lines.countP (fun l => decide (tag.data <:+: l.data))

theorem not_openTag_infix_of_hasTrip {l : List Char}
    (h : hasTrip '<' 'D' 'L' l = false) : ¬ openTag.data <:+: l := by
  intro hin
  have h3 : ['<', 'D', 'L'] <:+: l :=
    List.IsInfix.trans (List.IsPrefix.isInfix ⟨['>', '<', 'p', '>'], rfl⟩) hin
  rw [hasTrip_of_occurs h3] at h
  exact Bool.true_eq_false.mp h

theorem not_closeTag_infix_of_hasTrip {l : List Char}
    (h : hasTrip '<' '/' 'D' l = false) : ¬ closeTag.data <:+: l := by
  intro hin
  have h3 : ['<', '/', 'D'] <:+: l :=
    List.IsInfix.trans (List.IsPrefix.isInfix ⟨['L', '>', '<', 'p', '>'], rfl⟩) hin
  rw [hasTrip_of_occurs h3] at h
  exact Bool.true_eq_false.mp h

theorem lt_not_mem_html_escape (s : String) : '<' ∉ (html_escape s).data := by
  intro hm
  rw [html_escape] at hm
  rcases List.mem_flatMap.mp hm with ⟨x, _, hx⟩
  rw [htmlEscapeChar] at hx
  by_cases h1 : x = '&'
  · simp [h1] at hx
  · by_cases h2 : x = '<'
    · simp [h1, h2] at hx
    · by_cases h3 : x = '>'
      · simp [h1, h2, h3] at hx
      · by_cases h4 : x = '"'
        · simp [h1, h2, h3, h4] at hx
        · by_cases h5 : x = '\''
          · simp [h1, h2, h3, h4, h5] at hx
          · simp [h1, h2, h3, h4, h5] at hx
            exact h2 hx.symm

theorem lt_not_mem_natDigitsAux (fuel n : Nat) : '<' ∉ natDigitsAux fuel n := by
  induction fuel generalizing n with
  | zero => simp [natDigitsAux]
  | succ fuel ih =>
    intro hm
    rw [natDigitsAux] at hm
    by_cases h0 : n = 0
    · simp [h0] at hm
    · simp only [h0, if_false] at hm
      rcases List.mem_append.mp hm with h | h
      · exact ih _ h
      · have hd : n % 10 < 10 := Nat.mod_lt _ (by norm_num)
        have : Char.ofNat (48 + n % 10) ≠ '<' := by
          have : ∀ d : Nat, d < 10 → Char.ofNat (48 + d) ≠ '<' := by decide
          exact this _ hd
        simp at h
        exact this h.symm

theorem lt_not_mem_pyIntRepr (i : Int) : '<' ∉ (pyIntRepr i).data := by
  cases i with
  | ofNat n =>
    by_cases h0 : n = 0
    · subst h0
      rw [pyIntRepr]
      decide
    · rw [pyIntRepr]
      simp only [h0, if_false]
      exact lt_not_mem_natDigitsAux _ _
  | negSucc m =>
    rw [pyIntRepr]
    intro hm
    rcases List.mem_cons.mp hm with h | h
    · exact absurd h (by decide)
    · exact lt_not_mem_natDigitsAux _ _ h

theorem lt_not_mem_indentStr (level : Nat) : '<' ∉ (indentStr level).data := by
  intro hm
  rw [indentStr] at hm
  have := List.eq_of_mem_replicate hm
  exact absurd this (by decide)

def TagFree (b : String) : Prop :=
  hasTrip '<' 'D' 'L' b.data = false ∧ hasTrip '<' '/' 'D' b.data = false

theorem hREF_two_openTrip (x y : Char) :
    hasTrip '<' 'D' 'L' ("<DT><A HREF=\"".data ++ [x, y]) = false := by
  simp [hasTrip, hasTrip_cons, startsWith2]

theorem hREF_two_closeTrip (x y : Char) :
    hasTrip '<' '/' 'D' ("<DT><A HREF=\"".data ++ [x, y]) = false := by
  simp [hasTrip, hasTrip_cons, startsWith2]

theorem tagFree_create_bookmark_html (title url : String) (created : Option String)
    (now localOff : Int) :
    TagFree (create_bookmark_html title url created now localOff) := by
  rw [create_bookmark_html]
  constructor
  · simp only [String.data_append, List.append_assoc]
    refine hasTrip_append_closed hREF_two_openTrip ?_
    rw [hasTrip_append_left (lt_not_mem_html_escape url)]
    rw [hasTrip_append_left (by decide : ('<' : Char) ∉ "\" ADD_DATE=\"".data)]
    rw [hasTrip_append_left (lt_not_mem_pyIntRepr _)]
    rw [hasTrip_append_left (by decide : ('<' : Char) ∉ "\">".data)]
    rw [hasTrip_append_left (lt_not_mem_html_escape title)]
    decide
  · simp only [String.data_append, List.append_assoc]
    refine hasTrip_append_closed hREF_two_closeTrip ?_
    rw [hasTrip_append_left (lt_not_mem_html_escape url)]
    rw [hasTrip_append_left (by decide : ('<' : Char) ∉ "\" ADD_DATE=\"".data)]
    rw [hasTrip_append_left (lt_not_mem_pyIntRepr _)]
    rw [hasTrip_append_left (by decide : ('<' : Char) ∉ "\">".data)]
    rw [hasTrip_append_left (lt_not_mem_html_escape title)]
    decide

mutual
def pairCount : BookmarkFolder → Nat
  | .mk n subs _ => (if n ≠ "root" then 1 else 0) + pairCountSubs subs

def pairCountSubs : List (String × BookmarkFolder) → Nat
  | [] => 0
  | (_, c) :: rest => pairCount c + pairCountSubs rest
end

theorem pairCountSubs_eq (l : List (String × BookmarkFolder)) :
    pairCountSubs l = (l.map (fun p => pairCount p.2)).sum := by
  induction l with
  | nil => rfl
  | cons p rest ih => cases p; simp [pairCountSubs, ih]

theorem header_line_no_open (level : Nat) (n : String) :
    ¬ openTag.data <:+: (indentStr level ++ "<DT><H3>" ++ html_escape n ++ "</H3>").data := by
  apply not_openTag_infix_of_hasTrip
  simp only [String.data_append, List.append_assoc]
  rw [hasTrip_append_left (lt_not_mem_indentStr level)]
  refine hasTrip_append_closed (fun x y => by simp [hasTrip, hasTrip_cons, startsWith2]) ?_
  rw [hasTrip_append_left (lt_not_mem_html_escape n)]
  decide

theorem header_line_no_close (level : Nat) (n : String) :
    ¬ closeTag.data <:+: (indentStr level ++ "<DT><H3>" ++ html_escape n ++ "</H3>").data := by
  apply not_closeTag_infix_of_hasTrip
  simp only [String.data_append, List.append_assoc]
  rw [hasTrip_append_left (lt_not_mem_indentStr level)]
  refine hasTrip_append_closed (fun x y => by simp [hasTrip, hasTrip_cons, startsWith2]) ?_
  rw [hasTrip_append_left (lt_not_mem_html_escape n)]
  decide

theorem open_line_has_open (level : Nat) :
    openTag.data <:+: (indentStr level ++ "<DL><p>").data :=
  ⟨(indentStr level).data, [], by simp [openTag]⟩

theorem open_line_no_close (level : Nat) :
    ¬ closeTag.data <:+: (indentStr level ++ "<DL><p>").data := by
  apply not_closeTag_infix_of_hasTrip
  simp only [String.data_append]
  rw [hasTrip_append_left (lt_not_mem_indentStr level)]
  decide

theorem close_line_has_close (level : Nat) :
    closeTag.data <:+: (indentStr level ++ "</DL><p>").data :=
  ⟨(indentStr level).data, [], by simp [closeTag]⟩

theorem close_line_no_open (level : Nat) :
    ¬ openTag.data <:+: (indentStr level ++ "</DL><p>").data := by
  apply not_openTag_infix_of_hasTrip
  simp only [String.data_append]
  rw [hasTrip_append_left (lt_not_mem_indentStr level)]
  decide

theorem bookmark_line_no_open {b : String} (hb : TagFree b) (level : Nat) :
    ¬ openTag.data <:+: (indentStr level ++ b).data := by
  apply not_openTag_infix_of_hasTrip
  simp only [String.data_append]
  rw [hasTrip_append_left (lt_not_mem_indentStr level)]
  exact hb.1

theorem bookmark_line_no_close {b : String} (hb : TagFree b) (level : Nat) :
    ¬ closeTag.data <:+: (indentStr level ++ b).data := by
  apply not_closeTag_infix_of_hasTrip
  simp only [String.data_append]
  rw [hasTrip_append_left (lt_not_mem_indentStr level)]
  exact hb.2

theorem render_balance (t : BookmarkFolder) :
    ∀ level : Nat, (∀ b ∈ allBookmarks t, TagFree b) →
      countTagLines openTag (generate_folder_html t level) = pairCount t ∧
      countTagLines closeTag (generate_folder_html t level) = pairCount t := by
  refine folderInduction (fun t => ∀ level : Nat, (∀ b ∈ allBookmarks t, TagFree b) →
      countTagLines openTag (generate_folder_html t level) = pairCount t ∧
      countTagLines closeTag (generate_folder_html t level) = pairCount t) ?_ t
  intro n subs marks ih level hb
  have hmarks : ∀ b ∈ marks, TagFree b := fun b hbm =>
    hb b (List.mem_append_left _ hbm)
  have hsubB : ∀ p ∈ subs, ∀ b ∈ allBookmarks p.2, TagFree b := fun p hp b hbm =>
    hb b (List.mem_append_right _ (mem_allBookmarksSubs.mpr ⟨p, hp, hbm⟩))
  have hmm_open : ∀ L : Nat, List.countP (fun l => decide (openTag.data <:+: l.data))
      (marks.map (fun b => indentStr L ++ b)) = 0 := by
    intro L
    rw [List.countP_eq_zero]
    intro line hline
    rcases List.mem_map.mp hline with ⟨b, hbm, rfl⟩
    simpa using bookmark_line_no_open (hmarks b hbm) L
  have hmm_close : ∀ L : Nat, List.countP (fun l => decide (closeTag.data <:+: l.data))
      (marks.map (fun b => indentStr L ++ b)) = 0 := by
    intro L
    rw [List.countP_eq_zero]
    intro line hline
    rcases List.mem_map.mp hline with ⟨b, hbm, rfl⟩
    simpa using bookmark_line_no_close (hmarks b hbm) L
  have hfl_open : ∀ L : Nat, List.countP (fun l => decide (openTag.data <:+: l.data))
      (((sortedSubfolders (.mk n subs marks)).map
        (fun c => generate_folder_html c.2 L)).flatten) = pairCountSubs subs := by
    intro L
    rw [List.countP_flatten, List.map_map]
    have hcongr : List.map ((List.countP fun l => decide (openTag.data <:+: l.data)) ∘
          fun c => generate_folder_html c.2 L) (sortedSubfolders (.mk n subs marks))
        = List.map (fun c => pairCount c.2) (sortedSubfolders (.mk n subs marks)) :=
      List.map_congr_left (fun c hc =>
        (ih c (mem_insertionSortB.mp hc) L (hsubB c (mem_insertionSortB.mp hc))).1)
    rw [hcongr, pairCountSubs_eq]
    exact ((perm_insertionSortB subfolderLe subs).map (fun c => pairCount c.2)).sum_eq
  have hfl_close : ∀ L : Nat, List.countP (fun l => decide (closeTag.data <:+: l.data))
      (((sortedSubfolders (.mk n subs marks)).map
        (fun c => generate_folder_html c.2 L)).flatten) = pairCountSubs subs := by
    intro L
    rw [List.countP_flatten, List.map_map]
    have hcongr : List.map ((List.countP fun l => decide (closeTag.data <:+: l.data)) ∘
          fun c => generate_folder_html c.2 L) (sortedSubfolders (.mk n subs marks))
        = List.map (fun c => pairCount c.2) (sortedSubfolders (.mk n subs marks)) :=
      List.map_congr_left (fun c hc =>
        (ih c (mem_insertionSortB.mp hc) L (hsubB c (mem_insertionSortB.mp hc))).2)
    rw [hcongr, pairCountSubs_eq]
    exact ((perm_insertionSortB subfolderLe subs).map (fun c => pairCount c.2)).sum_eq
  by_cases hroot : n = "root"
  · subst hroot
    rw [generate_folder_html_unfold]
    simp only [BookmarkFolder.name_mk, ne_eq, not_true_eq_false, if_false,
      BookmarkFolder.bookmarks_mk, List.nil_append, List.append_nil]
    constructor
    · rw [countTagLines, List.countP_append, hmm_open, hfl_open]
      simp [pairCount]
    · rw [countTagLines, List.countP_append, hmm_close, hfl_close]
      simp [pairCount]
  · rw [generate_folder_html_unfold]
    simp only [BookmarkFolder.name_mk, ne_eq, hroot, not_false_eq_true, if_true,
      BookmarkFolder.bookmarks_mk]
    constructor
    · rw [countTagLines]
      simp only [List.countP_append, List.countP_cons, List.countP_nil]
      rw [hmm_open, hfl_open]
      rw [decide_eq_false (header_line_no_open level n),
        decide_eq_true (open_line_has_open level),
        decide_eq_false (close_line_no_open level)]
      simp [pairCount, hroot]
    · rw [countTagLines]
      simp only [List.countP_append, List.countP_cons, List.countP_nil]
      rw [hmm_close, hfl_close]
      rw [decide_eq_false (header_line_no_close level n),
        decide_eq_false (open_line_no_close level),
        decide_eq_true (close_line_has_close level)]
      simp [pairCount, hroot]
      omega

theorem allBookmarks_mk (n : String) (subs : List (String × BookmarkFolder))
    (marks : List String) :
    allBookmarks (.mk n subs marks) = marks ++ allBookmarksSubs subs := rfl

theorem mem_updateSubfolder {k : String} {g : BookmarkFolder → BookmarkFolder}
    {d : BookmarkFolder} {l : List (String × BookmarkFolder)}
    {p : String × BookmarkFolder} (h : p ∈ updateSubfolder k g d l) :
    p ∈ l ∨ ∃ c, p = (k, g c) ∧ (c = d ∨ (k, c) ∈ l) := by
  induction l with
  | nil =>
    simp only [updateSubfolder, List.mem_cons, List.not_mem_nil, or_false] at h
    exact Or.inr ⟨d, h, Or.inl rfl⟩
  | cons q rest ih =>
    cases q with
    | mk k' c' =>
      by_cases hk : k' = k
      · subst hk
        simp only [updateSubfolder, if_pos rfl] at h
        rcases List.mem_cons.mp h with rfl | h2
        · exact Or.inr ⟨c', rfl, Or.inr (List.mem_cons_self _ _)⟩
        · exact Or.inl (List.mem_cons_of_mem _ h2)
      · simp only [updateSubfolder, if_neg hk] at h
        rcases List.mem_cons.mp h with rfl | h2
        · exact Or.inl (List.mem_cons_self _ _)
        · rcases ih h2 with h3 | ⟨c, rfl, hc⟩
          · exact Or.inl (List.mem_cons_of_mem _ h3)
          · refine Or.inr ⟨c, rfl, ?_⟩
            rcases hc with rfl | hc2
            · exact Or.inl rfl
            · exact Or.inr (List.mem_cons_of_mem _ hc2)

theorem mem_allBookmarks_addAlong (segs : List String) (bm : String) :
    ∀ (t : BookmarkFolder) (b : String), b ∈ allBookmarks (addAlong segs t bm) →
      b ∈ allBookmarks t ∨ b = bm := by
  induction segs with
  | nil =>
    intro t b h
    cases t with
    | mk n subs marks =>
      simp only [addAlong, allBookmarks_mk, List.mem_append, List.mem_cons,
        List.not_mem_nil, or_false] at h ⊢
      tauto
  | cons seg rest ih =>
    intro t b h
    cases t with
    | mk n subs marks =>
      simp only [addAlong, allBookmarks_mk, List.mem_append] at h ⊢
      rcases h with hm | hsub
      · exact Or.inl (Or.inl hm)
      · rcases mem_allBookmarksSubs.mp hsub with ⟨p, hp, hbp⟩
        rcases mem_updateSubfolder hp with hp2 | ⟨c, rfl, hc⟩
        · exact Or.inl (Or.inr (mem_allBookmarksSubs.mpr ⟨p, hp2, hbp⟩))
        · rcases ih c b hbp with hbc | rfl
          · rcases hc with rfl | hc2
            · exact absurd hbc (by simp [allBookmarks_mk, allBookmarksSubs])
            · exact Or.inl (Or.inr (mem_allBookmarksSubs.mpr ⟨(seg, c), hc2, hbc⟩))
          · exact Or.inr rfl

theorem mem_allBookmarks_fold (g : Row → String) :
    ∀ (rows : List Row) (t : BookmarkFolder) (b : String),
    b ∈ allBookmarks (rows.foldl
        (fun acc r => add_to_folder_structure acc r.folder (g r)) t) →
      b ∈ allBookmarks t ∨ ∃ r ∈ rows, b = g r := by
  intro rows
  induction rows with
  | nil =>
    intro t b h
    exact Or.inl h
  | cons r rest ih =>
    intro t b h
    simp only [List.foldl_cons] at h
    rcases ih _ b h with h1 | ⟨r', hr', rfl⟩
    · rw [add_to_folder_structure] at h1
      rcases mem_allBookmarks_addAlong _ _ _ _ h1 with h2 | rfl
      · exact Or.inl h2
      · exact Or.inr ⟨r, List.mem_cons_self _ _, rfl⟩
    · exact Or.inr ⟨r', List.mem_cons_of_mem _ hr', rfl⟩

set_option maxRecDepth 8000 in
/-- C10: for every input, the rendered document is list-balanced — the
number of emitted lines containing the list-open tag `<DL><p>` equals the
number containing the list-close tag `</DL><p>` (the fixed header/footer
contribute one matched pair, every rendered folder one more). -/
theorem c10_document_list_balanced (rows : List Row) (now localOff : Int) :
    countTagLines openTag (bookmarksDocumentLines (create_folder_structure rows now localOff))
      = countTagLines closeTag (bookmarksDocumentLines (create_folder_structure rows now localOff)) := by
  have hb : ∀ b ∈ allBookmarks (create_folder_structure rows now localOff), TagFree b := by
    intro b hbm
    rw [create_folder_structure] at hbm
    rcases mem_allBookmarks_fold (fun r => rowBookmarkHtml r now localOff) _ _ b hbm with
      h | ⟨r, _, rfl⟩
    · exact absurd h (by simp [allBookmarks_mk, allBookmarksSubs])
    · exact tagFree_create_bookmark_html _ _ _ _ _
  have h := render_balance (create_folder_structure rows now localOff) 0 hb
  obtain ⟨h1, h2⟩ := h
  rw [countTagLines] at h1 h2
  rw [bookmarksDocumentLines, countTagLines, countTagLines]
  simp only [List.countP_append]
  have hhdr_open : List.countP (fun l => decide (openTag.data <:+: l.data)) headerLines = 1 := by
    decide
  have hhdr_close : List.countP (fun l => decide (closeTag.data <:+: l.data)) headerLines = 0 := by
    decide
  have hftr_open : List.countP (fun l => decide (openTag.data <:+: l.data)) [footerLine] = 0 := by
    decide
  have hftr_close : List.countP (fun l => decide (closeTag.data <:+: l.data)) [footerLine] = 1 := by
    decide
  rw [hhdr_open, hhdr_close, hftr_open, hftr_close, h1, h2]
  omega
